import Mathlib

/-!
Shallow embedding of the price-finder scraping pipeline (src/app.py) and
proofs about it.  Python strings are modelled as Lean `String`s (ASCII
whitespace and case), Python floats as `ℚ`.  External capabilities
(the HTTP fetch + HTML parse, `urllib.parse.urljoin`, and the third-party
locale-aware price parser `price_parser.Price.fromstring`) are passed in as
explicit function parameters; everything else is translated directly from
the source.
-/

namespace PriceFinder

/-- Model of Python's whitespace class (the ASCII fragment of `\s` /
`str.strip`): space, tab, newline, carriage return, vertical tab, form feed. -/
def pyIsSpace (c : Char) : Bool :=
  c == ' ' || c == '\t' || c == '\n' || c == '\r' || c == '\x0b' || c == '\x0c'

/-- Drop trailing whitespace characters (structural helper for `str.strip`). -/
def dropTrailingWs : List Char → List Char
  | [] => []
  | c :: cs =>
    match dropTrailingWs cs with
    | [] => if pyIsSpace c then [] else [c]
    | c2 :: cs2 => c :: c2 :: cs2

/-- Model of Python `str.strip()` on character lists. -/
def stripChars (l : List Char) : List Char :=
  dropTrailingWs (l.dropWhile pyIsSpace)

/-- Model of Python `str.strip()`. -/
def pyStrip (s : String) : String :=
  String.mk (stripChars s.data)

/-- Model of `re.sub(r"\s+", " ", ·)`: every maximal run of whitespace
characters becomes a single space. -/
def collapseChars : List Char → List Char
  | [] => []
  | [c] => [if pyIsSpace c then ' ' else c]
  | c :: d :: cs =>
    if pyIsSpace c && pyIsSpace d then collapseChars (d :: cs)
    else (if pyIsSpace c then ' ' else c) :: collapseChars (d :: cs)

/-- `normalize_space` from src/app.py line 48:
`re.sub(r"\s+", " ", (s or "").strip())`. -/
def normalize_space (s : String) : String :=
  String.mk (collapseChars (stripChars s.data))

/-- Model of Python `str.lower()` (ASCII case folding). -/
def pyLower (s : String) : String :=
  String.mk (s.data.map Char.toLower)

/-- Boolean list-prefix test. -/
def isPref : List Char → List Char → Bool
  | [], _ => true
  | _ :: _, [] => false
  | a :: as, b :: bs => a == b && isPref as bs

/-- Model of Python's substring operator `q in t` on character lists. -/
def containsSub (q : List Char) : List Char → Bool
  | [] => isPref q []
  | b :: ts => isPref q (b :: ts) || containsSub q ts

/-- `wildcard_match` from src/app.py lines 51-55: normalize and lowercase
both sides, then test substring containment. -/
def wildcard_match (query text : String) : Bool :=
  let q := pyLower (normalize_space query)
  let t := pyLower (normalize_space text)
  containsSub q.data t.data

/-- Model of Python `a or b` on strings (empty string is falsy). -/
def pyOr (a b : String) : String :=
  if a = "" then b else a

/-- `PRICE_SANITIZE_RE.sub("", ·)` from src/app.py line 26: strip every
character that is not a digit, `.` or `,`. -/
def price_sanitize (s : String) : String :=
  String.mk (s.data.filter (fun c => c.isDigit || c == '.' || c == ','))

/-- Model of Python `str.replace(",", "")`. -/
def removeCommas (s : String) : String :=
  String.mk (s.data.filter (fun c => c != ','))

/-- Digits-to-number accumulator. -/
def natOfDigits (l : List Char) : Nat :=
  l.foldl (fun n c => 10 * n + (c.toNat - 48)) 0

/-- Unsigned part of Python `float()` parsing: `digits [. digits]` or
`. digits`, requiring at least one digit overall. -/
def parseUnsigned (l : List Char) : Option ℚ :=
  let ip := l.takeWhile Char.isDigit
  match l.dropWhile Char.isDigit with
  | [] => if ip = [] then none else some ((natOfDigits ip : ℚ))
  | '.' :: frac =>
    if frac.all Char.isDigit && (!ip.isEmpty || !frac.isEmpty) then
      some ((natOfDigits ip : ℚ) + (natOfDigits frac : ℚ) / ((10 : ℚ) ^ frac.length))
    else none
  | _ => none

/-- Model of Python `float(str)` on plain decimal notation: optional
surrounding whitespace, optional sign, decimal digits with at most one dot.
(Exponent notation, `inf`/`nan` and digit-group underscores are outside the
model; no input produced by this program's sanitizer uses them.) -/
def pyFloat (s : String) : Option ℚ :=
  match stripChars s.data with
  | '+' :: r => parseUnsigned r
  | '-' :: r => (parseUnsigned r).map (fun q => -q)
  | r => parseUnsigned r

/-- `parse_price` from src/app.py lines 57-67.  The third-party
`Price.fromstring` is abstracted as the parameter `fs`, returning the
optional amount and optional currency the library would extract. -/
def parse_price (fs : String → Option ℚ × Option String) (text : String) :
    Option ℚ × Option String :=
  if text = "" then (none, none)
  else
    match fs text with
    | (some a, cur) => (some a, cur)
    | (none, _) =>
      match pyFloat (removeCommas (price_sanitize text)) with
      | some v => (some v, none)
      | none => (none, none)

/-- Uppercase hex digit for percent-encoding. -/
def hexUpper (n : Nat) : Char :=
  if n < 10 then Char.ofNat (48 + n) else Char.ofNat (55 + n)

/-- Per-byte step of `urllib.parse.quote_plus`: unreserved bytes are kept,
a space becomes `+`, everything else is percent-encoded. -/
def quoteByte (n : Nat) : List Char :=
  if (48 ≤ n && n ≤ 57) || (65 ≤ n && n ≤ 90) || (97 ≤ n && n ≤ 122) ||
     n == 95 || n == 46 || n == 45 || n == 126 then
    [Char.ofNat n]
  else if n == 32 then ['+']
  else ['%', hexUpper (n / 16), hexUpper (n % 16)]

/-- Model of `urllib.parse.quote_plus` on the UTF-8 bytes of the input. -/
def quote_plus (s : String) : String :=
  String.mk ((s.data.map
    (fun c => ((String.utf8EncodeChar c).map (fun b => quoteByte b.toNat)).flatten)).flatten)

/-- Fuel-indexed replace-all on character lists (fuel `≥` list length is
always sufficient, since every step consumes at least one character). -/
def replaceFuel (pat rep : List Char) : Nat → List Char → List Char
  | _, [] => []
  | 0, l => l
  | Nat.succ f, c :: cs =>
    if !pat.isEmpty && isPref pat (c :: cs) then
      rep ++ replaceFuel pat rep f (cs.drop (pat.length - 1))
    else c :: replaceFuel pat rep f cs

/-- Model of Python `str.replace(pat, rep)` (replace all occurrences,
left to right). -/
def pyReplace (s pat rep : String) : String :=
  String.mk (replaceFuel pat.data rep.data s.data.length s.data)

/-- URL construction from src/app.py lines 156-157:
`quote_plus(query.strip())` substituted for the `{query}` token. -/
def build_search_url (query template : String) : String :=
  pyReplace template "\x7bquery\x7d" (quote_plus (pyStrip query))

/-- JSON values, as produced by `json.loads`. -/
inductive JVal where
  | null
  | bool (b : Bool)
  | num (q : ℚ)
  | str (s : String)
  | arr (xs : List JVal)
  | obj (kvs : List (String × JVal))

/-- Model of Python `dict.get` on a parsed JSON object: the last binding of
a duplicated key wins (as in `json.loads`), and a JSON `null` value is
indistinguishable from an absent key (both give Python `None`). -/
def jget (kvs : List (String × JVal)) (k : String) : Option JVal :=
  match kvs.reverse.find? (fun p => p.1 == k) with
  | some p => match p.2 with | JVal.null => none | v => some v
  | none => none

/-- The `@type` tag of a JSON object, when it is a string. -/
def nodeTypeTag (kvs : List (String × JVal)) : Option String :=
  match jget kvs "@type" with
  | some (JVal.str t) => some t
  | _ => none

/-- `obj.get("@type") in ("Product", "Offer", "AggregateOffer")` from
src/app.py line 101. -/
def isTargetNode (kvs : List (String × JVal)) : Bool :=
  match nodeTypeTag kvs with
  | some t => t == "Product" || t == "Offer" || t == "AggregateOffer"
  | none => false

mutual
/-- The generator `walk` from src/app.py lines 99-107: yield every nested
object whose `@type` is Product/Offer/AggregateOffer, in traversal order
(an object first, then its values; list items in order). -/
def walk : JVal → List JVal
  | JVal.obj kvs => (if isTargetNode kvs then [JVal.obj kvs] else []) ++ walkObj kvs
  | JVal.arr xs => walkArr xs
  | _ => []

/-- `walk` over the items of a JSON array. -/
def walkArr : List JVal → List JVal
  | [] => []
  | v :: vs => walk v ++ walkArr vs

/-- `walk` over the values of a JSON object. -/
def walkObj : List (String × JVal) → List JVal
  | [] => []
  | (_, v) :: kvs => walk v ++ walkObj kvs
end

/-- `normalize_space(obj.get("name") or "")` from src/app.py lines 112/121.
Falsy values give the empty title; a truthy non-string raises a `TypeError`
inside `re.sub` (modelled as `Except.error`). -/
def getNameField (kvs : List (String × JVal)) : Except Unit String :=
  match jget kvs "name" with
  | none => Except.ok ""
  | some (JVal.str s) => Except.ok (normalize_space s)
  | some (JVal.bool false) => Except.ok ""
  | some (JVal.num q) => if q = 0 then Except.ok "" else Except.error ()
  | some (JVal.arr []) => Except.ok ""
  | some (JVal.obj []) => Except.ok ""
  | some JVal.null => Except.ok ""
  | some _ => Except.error ()

/-- `offer.get("url") or ""` from src/app.py line 128.  Falsy values give
`""`; a truthy non-string raises inside `urljoin` (modelled as
`Except.error`). -/
def getUrlField (kvs : List (String × JVal)) : Except Unit String :=
  match jget kvs "url" with
  | none => Except.ok ""
  | some (JVal.str s) => Except.ok s
  | some (JVal.bool false) => Except.ok ""
  | some (JVal.num q) => if q = 0 then Except.ok "" else Except.error ()
  | some (JVal.arr []) => Except.ok ""
  | some (JVal.obj []) => Except.ok ""
  | some JVal.null => Except.ok ""
  | some _ => Except.error ()

/-- `offer.get("priceCurrency") or ""` from src/app.py line 127.  String
values are kept; every other value is modelled as `""` (no claim touches a
non-string currency). -/
def getCurrency (kvs : List (String × JVal)) : String :=
  match jget kvs "priceCurrency" with
  | some (JVal.str s) => s
  | _ => ""

/-- `float(price_val)` under `try/except` from src/app.py lines 134-137:
numbers pass through, strings go through `float()`, booleans coerce to
1/0, anything else raises and is caught, giving `None`. -/
def floatOfJVal : JVal → Option ℚ
  | JVal.num q => some q
  | JVal.str s => pyFloat s
  | JVal.bool b => some (if b then 1 else 0)
  | _ => none

/-- `offer.get("price")`, falling back to `offer.get("lowPrice")` when the
former is `None` (src/app.py lines 130-132). -/
def offerPriceVal (kvs : List (String × JVal)) : Option JVal :=
  match jget kvs "price" with
  | none => jget kvs "lowPrice"
  | some v => some v

/-- The parsed price of an offer object: lines 130-137 of src/app.py. -/
def offer_price (kvs : List (String × JVal)) : Option ℚ :=
  match offerPriceVal kvs with
  | none => none
  | some v => floatOfJVal v

/-- A found offer record (the `FoundOffer` dataclass, src/app.py 39-46). -/
structure FoundOffer where
  site : String
  title : String
  price : ℚ
  currency : String
  url : String
  matched : Bool
deriving DecidableEq, Repr

/-- `absolutize_url` from src/app.py lines 69-72, with `urllib.parse.urljoin`
abstracted as the parameter `uj`. -/
def absolutize_url (uj : String → String → String) (base rel : String) : String :=
  if rel = "" then "" else uj base rel

/-- `_offers_from_offer_obj` from src/app.py lines 125-150: build at most
one offer from an offer object, skipping it when no price parses.  The
`Except.error` case models the `urljoin` `TypeError` on a truthy non-string
`url` field, which propagates out of this function. -/
def offers_from_offer_obj (uj : String → String → String)
    (kvs : List (String × JVal)) (title base : String) :
    Except Unit (List FoundOffer) :=
  match getUrlField kvs with
  | Except.error e => Except.error e
  | Except.ok rel =>
    let currency := getCurrency kvs
    let url := pyOr (absolutize_url uj base rel) base
    Except.ok (match offer_price kvs with
      | none => []
      | some p =>
        [{ site := ""
         , title := pyOr title "(JSON-LD Product)"
         , price := p
         , currency := currency
         , url := url
         , matched := true }])

/-- The `for oo in offers_obj` loop of src/app.py lines 116-119: each dict
element contributes offers, other elements are ignored. -/
def offersFromList (uj : String → String → String) (base title : String) :
    List JVal → Except Unit (List FoundOffer)
  | [] => Except.ok []
  | JVal.obj okvs :: rest =>
    match offers_from_offer_obj uj okvs title base with
    | Except.error e => Except.error e
    | Except.ok os =>
      match offersFromList uj base title rest with
      | Except.error e => Except.error e
      | Except.ok more => Except.ok (os ++ more)
  | _ :: rest => offersFromList uj base title rest

/-- The body of the `for obj in walk(node)` loop in
`_extract_offers_from_jsonld_node` (src/app.py lines 109-123). -/
def nodeStep (uj : String → String → String) (base : String) :
    JVal → Except Unit (List FoundOffer)
  | JVal.obj kvs =>
    match nodeTypeTag kvs with
    | some "Product" =>
      (match getNameField kvs with
       | Except.error e => Except.error e
       | Except.ok title =>
         match jget kvs "offers" with
         | some (JVal.obj okvs) => offers_from_offer_obj uj okvs title base
         | some (JVal.arr oos) => offersFromList uj base title oos
         | _ => Except.ok [])
    | some "Offer" =>
      (match getNameField kvs with
       | Except.error e => Except.error e
       | Except.ok title => offers_from_offer_obj uj kvs title base)
    | some "AggregateOffer" =>
      (match getNameField kvs with
       | Except.error e => Except.error e
       | Except.ok title => offers_from_offer_obj uj kvs title base)
    | _ => Except.ok []
  | _ => Except.ok []

/-- Fold of `nodeStep` over the walked objects, propagating any raise. -/
def nodeStepFold (uj : String → String → String) (base : String) :
    List JVal → Except Unit (List FoundOffer)
  | [] => Except.ok []
  | v :: vs =>
    match nodeStep uj base v with
    | Except.error e => Except.error e
    | Except.ok os =>
      match nodeStepFold uj base vs with
      | Except.error e => Except.error e
      | Except.ok more => Except.ok (os ++ more)

/-- `_extract_offers_from_jsonld_node` from src/app.py lines 96-123. -/
def extract_offers_from_jsonld_node (uj : String → String → String)
    (base : String) (node : JVal) : Except Unit (List FoundOffer) :=
  nodeStepFold uj base (walk node)

/-- The per-node `try/except` of src/app.py lines 90-93: a node whose
extraction raises contributes nothing. -/
def jsonldNodeOffers (uj : String → String → String) (base : String)
    (node : JVal) : List FoundOffer :=
  match extract_offers_from_jsonld_node uj base node with
  | Except.ok os => os
  | Except.error _ => []

/-- One structured-data block (src/app.py lines 82-93): `none` models a
block whose text failed `json.loads` and is skipped; a parsed array is
processed node by node, any other value as a single node. -/
def jsonldBlockOffers (uj : String → String → String) (base : String) :
    Option JVal → List FoundOffer
  | none => []
  | some data =>
    ((match data with
      | JVal.arr xs => xs
      | v => [v]).map (jsonldNodeOffers uj base)).flatten

/-- `extract_jsonld_offers` from src/app.py lines 79-94, over the list of
parse outcomes of the page's structured-data script blocks. -/
def extract_jsonld_offers (uj : String → String → String) (base : String)
    (scripts : List (Option JVal)) : List FoundOffer :=
  (scripts.map (jsonldBlockOffers uj base)).flatten

/-- The `SiteConfig` dataclass (src/app.py lines 28-37). -/
structure SiteConfig where
  name : String
  search_url_template : String
  card_selector : String
  title_selector : String
  price_selector : String
  link_selector : String
  currency_hint : String
  max_results : Nat

/-- A selected DOM element: its `get_text(" ", strip=True)` result and its
optional `href` attribute. -/
structure Elem where
  text : String
  href : Option String

/-- A result card: `select_one` restricted to the card's subtree. -/
structure Card where
  selectOne : String → Option Elem

/-- The parsed page: `soup.select` for CSS selectors, plus the `json.loads`
outcome of every `script[type="application/ld+json"]` block in order. -/
structure Doc where
  select : String → List Card
  jsonld : List (Option JVal)

/-- Card title extraction, src/app.py lines 172-176. -/
def card_title (cfg : SiteConfig) (c : Card) : String :=
  if cfg.title_selector ≠ "" then
    match c.selectOne cfg.title_selector with
    | some t => normalize_space t.text
    | none => ""
  else ""

/-- Card price-text extraction, src/app.py lines 178-182. -/
def card_price_text (cfg : SiteConfig) (c : Card) : String :=
  if cfg.price_selector ≠ "" then
    match c.selectOne cfg.price_selector with
    | some p => normalize_space p.text
    | none => ""
  else ""

/-- Card link extraction, src/app.py lines 184-188 (`a.get("href")` must be
truthy for the link to be resolved). -/
def card_link (uj : String → String → String) (cfg : SiteConfig)
    (base : String) (c : Card) : String :=
  if cfg.link_selector ≠ "" then
    match c.selectOne cfg.link_selector with
    | some a =>
      match a.href with
      | some h => if h ≠ "" then absolutize_url uj base h else ""
      | none => ""
    | none => ""
  else ""

/-- The per-card body of the selector loop, src/app.py lines 171-205:
`none` when the price text does not parse (the card is discarded). -/
def card_offer (uj : String → String → String)
    (fs : String → Option ℚ × Option String) (query : String)
    (cfg : SiteConfig) (base : String) (c : Card) : Option FoundOffer :=
  let title := card_title cfg c
  let price_text := card_price_text cfg c
  let link := card_link uj cfg base c
  match parse_price fs price_text with
  | (none, _) => none
  | (some amount, currency) =>
    some { site := cfg.name
         , title := pyOr title "(no title found)"
         , price := amount
         , currency := pyOr (currency.getD "") cfg.currency_hint
         , url := pyOr link base
         , matched := if title ≠ "" then wildcard_match query title else true }

/-- Deduplication key: the `(url, price, currency)` triple
(src/app.py line 219). -/
def offerKey (o : FoundOffer) : String × ℚ × String :=
  (o.url, o.price, o.currency)

/-- One insertion into the dedup dict (src/app.py lines 220-221): a key is
inserted only if absent, and insertion order is preserved. -/
def dedupStep (d : List ((String × ℚ × String) × FoundOffer))
    (x : FoundOffer) : List ((String × ℚ × String) × FoundOffer) :=
  if offerKey x ∈ d.map Prod.fst then d else d ++ [(offerKey x, x)]

/-- The dedup of src/app.py lines 217-222: an insertion-ordered dict keyed
by `offerKey`, first occurrence wins, then `list(dedup.values())`. -/
def dedupOffers (l : List FoundOffer) : List FoundOffer :=
  (l.foldl dedupStep []).map Prod.snd

/-- All candidate offers of one page in order (src/app.py lines 165-213):
selector-path offers for the first `max_results` cards, then structured-data
offers re-tagged with the site name, recomputed match flag and the currency
hint fallback. -/
def scrape_found (uj : String → String → String)
    (fs : String → Option ℚ × Option String) (doc : Doc) (query : String)
    (cfg : SiteConfig) (search_url : String) : List FoundOffer :=
  let cards := if cfg.card_selector ≠ "" then doc.select cfg.card_selector else []
  let sel :=
    if cards.isEmpty then []
    else (cards.take cfg.max_results).filterMap (card_offer uj fs query cfg search_url)
  let js := (extract_jsonld_offers uj search_url doc.jsonld).map (fun o =>
    { o with site := cfg.name
           , matched := if o.title ≠ "" then wildcard_match query o.title else true
           , currency := if cfg.currency_hint ≠ "" ∧ o.currency = ""
                         then cfg.currency_hint else o.currency })
  sel ++ js

/-- The filter of src/app.py line 216: keep matched offers and the two
sentinel "unknown title" cases. -/
def scrape_filtered (uj : String → String → String)
    (fs : String → Option ℚ × Option String) (doc : Doc) (query : String)
    (cfg : SiteConfig) (search_url : String) : List FoundOffer :=
  (scrape_found uj fs doc query cfg search_url).filter
    (fun x => x.matched || x.title == "(no title found)" || x.title == "(JSON-LD Product)")

/-- The list returned for one successfully fetched page
(src/app.py lines 215-222). -/
def scrape_result (uj : String → String → String)
    (fs : String → Option ℚ × Option String) (doc : Doc) (query : String)
    (cfg : SiteConfig) (search_url : String) : List FoundOffer :=
  dedupOffers (scrape_filtered uj fs doc query cfg search_url)

/-- `scrape_site` from src/app.py lines 152-222.  The network fetch and
HTML parse (`fetch_html` + `BeautifulSoup`) are abstracted as `fetchDoc`;
an `Except.error` is a raised request exception, and the `ValueError` of
line 154 is the configuration error below. -/
def scrape_site (uj : String → String → String)
    (fs : String → Option ℚ × Option String)
    (fetchDoc : String → Except String Doc) (query : String)
    (cfg : SiteConfig) : Except String (List FoundOffer) :=
  if containsSub "\x7bquery\x7d".data cfg.search_url_template.data = false then
    Except.error (cfg.name ++ ": search_url_template must include \x7bquery\x7d")
  else
    let search_url := build_search_url query cfg.search_url_template
    match fetchDoc search_url with
    | Except.error e => Except.error e
    | Except.ok doc =>
      Except.ok (scrape_result uj fs doc query cfg search_url)

/-- One row of the editable site table (src/app.py lines 284-295), after
the presentation layer's `fillna("")`/numeric coercion: every cell a
string, `max_results` already a number (or blank). -/
structure Row where
  name : String
  search_url_template : String
  card_selector : String
  title_selector : String
  price_selector : String
  link_selector : String
  currency_hint : String
  max_results : Option Nat

/-- `SiteConfig` construction from a row (src/app.py lines 286-295): strip
every string, default the name to "Unnamed site", default `max_results`
to 10. -/
def cfgOfRow (r : Row) : SiteConfig :=
  { name := pyOr (pyStrip r.name) "Unnamed site"
  , search_url_template := pyStrip r.search_url_template
  , card_selector := pyStrip r.card_selector
  , title_selector := pyStrip r.title_selector
  , price_selector := pyStrip r.price_selector
  , link_selector := pyStrip r.link_selector
  , currency_hint := pyStrip r.currency_hint
  , max_results := r.max_results.getD 10 }

/-- One iteration of the site loop (src/app.py lines 284-304): a blank
template is skipped with `continue`; otherwise the site is scraped, its
offers appended on success, and on any exception the error list gets
`f"{row['name']}: {e}"` (the raw row name). -/
def runStep (uj : String → String → String)
    (fs : String → Option ℚ × Option String)
    (fetchDoc : String → Except String Doc) (query : String)
    (acc : List FoundOffer × List String) (r : Row) :
    List FoundOffer × List String :=
  let cfg := cfgOfRow r
  if cfg.search_url_template = "" then acc
  else
    match scrape_site uj fs fetchDoc query cfg with
    | Except.ok os => (acc.1 ++ os, acc.2)
    | Except.error m => (acc.1, acc.2 ++ [r.name ++ ": " ++ m])

/-- The orchestrator's site loop (src/app.py lines 281-304): offers and
error strings accumulated across all rows in order. -/
def runSites (uj : String → String → String)
    (fs : String → Option ℚ × Option String)
    (fetchDoc : String → Except String Doc) (query : String)
    (rows : List Row) : List FoundOffer × List String :=
  rows.foldl (runStep uj fs fetchDoc query) ([], [])


/-- Reference deduplication in "explicit seen-set" form. -/
def dedupAux (seen : List (String × ℚ × String)) :
    List FoundOffer → List FoundOffer
  | [] => []
  | x :: xs =>
    if offerKey x ∈ seen then dedupAux seen xs
    else x :: dedupAux (seen ++ [offerKey x]) xs

/-- Specification-side deduplication, phrased as the spec phrases it: keep
each offer and delete every later offer sharing its key. -/
def keepFirsts : List FoundOffer → List FoundOffer
  | [] => []
  | x :: xs =>
    x :: keepFirsts (xs.filter (fun y => decide (offerKey y ≠ offerKey x)))
termination_by l => l.length
decreasing_by
  exact Nat.lt_succ_of_le (List.length_filter_le _ _)

theorem dedup_foldl_eq_aux (l : List FoundOffer)
    (d : List ((String × ℚ × String) × FoundOffer)) :
    (l.foldl dedupStep d).map Prod.snd =
      d.map Prod.snd ++ dedupAux (d.map Prod.fst) l := by
  induction l generalizing d with
  | nil => simp [dedupAux]
  | cons x xs ih =>
    simp only [List.foldl_cons, dedupStep, dedupAux]
    by_cases h : offerKey x ∈ d.map Prod.fst
    · simp [h, ih]
    · simp only [h, if_neg, if_false, ite_false]
      rw [ih]
      simp [h]

theorem dedupOffers_eq_aux (l : List FoundOffer) :
    dedupOffers l = dedupAux [] l := by
  simpa [dedupOffers] using dedup_foldl_eq_aux l []

theorem dedupAux_sublist (l : List FoundOffer)
    (seen : List (String × ℚ × String)) : (dedupAux seen l).Sublist l := by
  induction l generalizing seen with
  | nil => simp [dedupAux]
  | cons x xs ih =>
    simp only [dedupAux]
    by_cases h : offerKey x ∈ seen
    · simp only [h, if_true, ite_true]
      exact (ih seen).cons x
    · simp only [h, if_false, ite_false]
      exact (ih (seen ++ [offerKey x])).cons₂ x

theorem dedupAux_key_not_seen (l : List FoundOffer)
    (seen : List (String × ℚ × String)) (x : FoundOffer)
    (hx : x ∈ dedupAux seen l) : offerKey x ∉ seen := by
  induction l generalizing seen with
  | nil => simp [dedupAux] at hx
  | cons y ys ih =>
    simp only [dedupAux] at hx
    by_cases h : offerKey y ∈ seen
    · rw [if_pos h] at hx
      exact ih seen hx
    · rw [if_neg h] at hx
      rcases List.mem_cons.mp hx with rfl | hmem
      · exact h
      · intro hc
        exact ih (seen ++ [offerKey y]) hmem (by simp [hc])

theorem dedupAux_pairwise (l : List FoundOffer)
    (seen : List (String × ℚ × String)) :
    (dedupAux seen l).Pairwise (fun a b => offerKey a ≠ offerKey b) := by
  induction l generalizing seen with
  | nil => simp [dedupAux]
  | cons x xs ih =>
    simp only [dedupAux]
    by_cases h : offerKey x ∈ seen
    · simpa [h] using ih seen
    · rw [if_neg h]
      refine List.Pairwise.cons ?_ (ih (seen ++ [offerKey x]))
      intro y hy hxy
      exact dedupAux_key_not_seen xs (seen ++ [offerKey x]) y hy (by simp [hxy])

theorem dedupAux_eq_keepFirsts (l : List FoundOffer)
    (seen : List (String × ℚ × String)) :
    dedupAux seen l =
      keepFirsts (l.filter (fun y => decide (offerKey y ∉ seen))) := by
  induction l generalizing seen with
  | nil => simp [dedupAux, keepFirsts]
  | cons x xs ih =>
    simp only [dedupAux, List.filter_cons]
    by_cases h : offerKey x ∈ seen
    · simp only [h, if_true, ite_true, decide_not, not_true, decide_eq_true_eq]
      simpa [h] using ih seen
    · simp only [h, if_false, ite_false, decide_not, not_false_iff, decide_eq_true_eq]
      simp only [h, decide_eq_true_eq, not_false_iff, decide_not, ite_true, if_true]
      rw [keepFirsts, ih (seen ++ [offerKey x]), List.filter_filter]
      congr 2
      apply List.filter_congr
      intro y _
      by_cases hy : offerKey y = offerKey x <;> simp [hy, h]

theorem dedupOffers_eq_keepFirsts (l : List FoundOffer) :
    dedupOffers l = keepFirsts l := by
  rw [dedupOffers_eq_aux, dedupAux_eq_keepFirsts]
  congr 1
  simp

theorem pyIsSpace_cases (c : Char) (h : pyIsSpace c = true) :
    c = ' ' ∨ c = '\t' ∨ c = '\n' ∨ c = '\r' ∨ c = '\x0b' ∨ c = '\x0c' := by
  unfold pyIsSpace at h
  simp only [Bool.or_eq_true, beq_iff_eq] at h
  tauto

theorem pyIsSpace_not_digit (c : Char) (h : pyIsSpace c = true) :
    c.isDigit = false := by
  rcases pyIsSpace_cases c h with rfl | rfl | rfl | rfl | rfl | rfl <;> decide

theorem pyIsSpace_not_sanitized (c : Char) (h : pyIsSpace c = true) :
    (c.isDigit || c == '.' || c == ',') = false := by
  rcases pyIsSpace_cases c h with rfl | rfl | rfl | rfl | rfl | rfl <;> decide

theorem price_sanitize_ws (s : String)
    (h : ∀ c ∈ s.data, pyIsSpace c = true) : price_sanitize s = "" := by
  unfold price_sanitize
  have hfil : s.data.filter (fun c => c.isDigit || c == '.' || c == ',') = [] := by
    rw [List.filter_eq_nil_iff]
    intro c hc
    simp [pyIsSpace_not_sanitized c (h c hc)]
  rw [hfil]

theorem dropWhile_ws_head (l : List Char) (c : Char)
    (h : (l.dropWhile pyIsSpace).head? = some c) : pyIsSpace c = false := by
  induction l with
  | nil => simp at h
  | cons a as ih =>
    rw [List.dropWhile_cons] at h
    by_cases ha : pyIsSpace a = true
    · rw [if_pos ha] at h
      exact ih h
    · rw [if_neg ha] at h
      simp only [List.head?_cons, Option.some.injEq] at h
      subst h
      exact Bool.eq_false_iff.mpr ha

theorem dropTrailingWs_getLast (l : List Char) (c : Char)
    (h : (dropTrailingWs l).getLast? = some c) : pyIsSpace c = false := by
  induction l with
  | nil => simp [dropTrailingWs] at h
  | cons a as ih =>
    simp only [dropTrailingWs] at h
    cases hrec : dropTrailingWs as with
    | nil =>
      rw [hrec] at h
      by_cases ha : pyIsSpace a = true
      · simp [ha] at h
      · simp [ha] at h
        subst h
        exact Bool.eq_false_iff.mpr ha
    | cons b bs =>
      rw [hrec] at h
      rw [List.getLast?_cons_cons] at h
      exact ih (hrec ▸ h)

theorem dropTrailingWs_head (a : Char) (as : List Char) (c : Char)
    (h : (dropTrailingWs (a :: as)).head? = some c) : c = a := by
  simp only [dropTrailingWs] at h
  cases hrec : dropTrailingWs as with
  | nil =>
    rw [hrec] at h
    by_cases ha : pyIsSpace a = true <;> simp [ha] at h
    exact h.symm
  | cons b bs =>
    rw [hrec] at h
    simp only [List.head?_cons, Option.some.injEq] at h
    exact h.symm

theorem dropTrailingWs_eq_self (l : List Char)
    (h : ∀ c, l.getLast? = some c → pyIsSpace c = false) :
    dropTrailingWs l = l := by
  induction l with
  | nil => rfl
  | cons a as ih =>
    cases as with
    | nil =>
      have ha := h a (by simp)
      simp [dropTrailingWs, ha]
    | cons b bs =>
      have hrec : dropTrailingWs (b :: bs) = b :: bs := by
        apply ih
        intro c hc
        exact h c (by rw [List.getLast?_cons_cons]; exact hc)
      conv_lhs => rw [dropTrailingWs]
      rw [hrec]

theorem stripChars_head (l : List Char) (c : Char)
    (h : (stripChars l).head? = some c) : pyIsSpace c = false := by
  unfold stripChars at h
  cases hd : l.dropWhile pyIsSpace with
  | nil => rw [hd] at h; simp [dropTrailingWs] at h
  | cons a as =>
    rw [hd] at h
    have hc := dropTrailingWs_head a as c h
    subst hc
    exact dropWhile_ws_head l c (by rw [hd]; rfl)

theorem stripChars_getLast (l : List Char) (c : Char)
    (h : (stripChars l).getLast? = some c) : pyIsSpace c = false :=
  dropTrailingWs_getLast _ c h

theorem stripChars_eq_self (l : List Char)
    (hh : ∀ c, l.head? = some c → pyIsSpace c = false)
    (hl : ∀ c, l.getLast? = some c → pyIsSpace c = false) :
    stripChars l = l := by
  have hdrop : l.dropWhile pyIsSpace = l := by
    cases l with
    | nil => rfl
    | cons a as =>
      rw [List.dropWhile_cons, if_neg]
      rw [hh a rfl]
      simp
  unfold stripChars
  rw [hdrop]
  exact dropTrailingWs_eq_self l hl

theorem and_true_parts {a b : Bool} (h : (a && b) = true) :
    a = true ∧ b = true := by
  simp only [Bool.and_eq_true] at h
  exact h

theorem collapseChars_head (c : Char) (cs : List Char) :
    (collapseChars (c :: cs)).head? = some (if pyIsSpace c then ' ' else c) := by
  induction cs generalizing c with
  | nil => simp [collapseChars]
  | cons d ds ih =>
    simp only [collapseChars]
    by_cases h : (pyIsSpace c && pyIsSpace d) = true
    · rw [if_pos h, ih d]
      have hc : pyIsSpace c = true := (and_true_parts h).1
      have hd : pyIsSpace d = true := (and_true_parts h).2
      simp [hc, hd]
    · rw [if_neg h]
      simp

theorem collapseChars_ne_nil (c : Char) (cs : List Char) :
    collapseChars (c :: cs) ≠ [] := by
  intro hnil
  have hhead := collapseChars_head c cs
  rw [hnil] at hhead
  simp at hhead

theorem collapseChars_space_mem (l : List Char) :
    ∀ x ∈ collapseChars l, pyIsSpace x = true → x = ' ' := by
  induction l with
  | nil => simp [collapseChars]
  | cons c cs ih =>
    cases cs with
    | nil =>
      intro x hx hs
      simp only [collapseChars, List.mem_singleton] at hx
      subst hx
      by_cases hc : pyIsSpace c = true
      · simp [hc]
      · rw [if_neg hc] at hs ⊢
        exact absurd hs hc
    | cons d ds =>
      intro x hx hs
      simp only [collapseChars] at hx
      by_cases h : (pyIsSpace c && pyIsSpace d) = true
      · rw [if_pos h] at hx
        exact ih x hx hs
      · rw [if_neg h] at hx
        rcases List.mem_cons.mp hx with heq | hmem
        · subst heq
          by_cases hc : pyIsSpace c = true
          · simp [hc]
          · rw [if_neg hc] at hs ⊢
            exact absurd hs hc
        · exact ih x hmem hs

theorem collapseChars_chain (l : List Char) :
    (collapseChars l).Chain'
      (fun a b => ¬(pyIsSpace a = true ∧ pyIsSpace b = true)) := by
  induction l with
  | nil => simp [collapseChars]
  | cons c cs ih =>
    cases cs with
    | nil =>
      simp [collapseChars]
    | cons d ds =>
      simp only [collapseChars]
      by_cases h : (pyIsSpace c && pyIsSpace d) = true
      · rw [if_pos h]
        exact ih
      · rw [if_neg h]
        cases hc2 : collapseChars (d :: ds) with
        | nil => exact List.chain'_singleton _
        | cons y ys =>
          rw [hc2] at ih
          have hy : y = if pyIsSpace d then ' ' else d := by
            have := collapseChars_head d ds
            rw [hc2] at this
            simpa using this
          refine List.chain'_cons.mpr ⟨?_, ih⟩
          rintro ⟨hx, hyp⟩
          by_cases hc : pyIsSpace c = true
          · have hd : pyIsSpace d = false := by
              cases hpd : pyIsSpace d
              · rfl
              · exact absurd (by simp [hc, hpd]) h
            rw [hy] at hyp
            simp [hd] at hyp
          · rw [if_neg hc] at hx
            exact hc hx

theorem collapseChars_getLast (l : List Char) (x : Char)
    (hx : l.getLast? = some x) (hns : pyIsSpace x = false) :
    (collapseChars l).getLast? = some x := by
  induction l with
  | nil => simp at hx
  | cons c cs ih =>
    cases cs with
    | nil =>
      simp only [List.getLast?_singleton, Option.some.injEq] at hx
      subst hx
      simp [collapseChars, hns]
    | cons d ds =>
      have hx2 : (d :: ds).getLast? = some x := by
        rwa [List.getLast?_cons_cons] at hx
      simp only [collapseChars]
      by_cases h : (pyIsSpace c && pyIsSpace d) = true
      · rw [if_pos h]
        exact ih hx2
      · rw [if_neg h]
        cases hc2 : collapseChars (d :: ds) with
        | nil => exact absurd hc2 (collapseChars_ne_nil d ds)
        | cons y ys =>
          rw [List.getLast?_cons_cons]
          rw [← hc2]
          exact ih hx2

theorem collapseChars_eq_self (l : List Char)
    (hstd : ∀ x ∈ l, pyIsSpace x = true → x = ' ')
    (hch : l.Chain' (fun a b => ¬(pyIsSpace a = true ∧ pyIsSpace b = true))) :
    collapseChars l = l := by
  induction l with
  | nil => rfl
  | cons c cs ih =>
    cases cs with
    | nil =>
      simp only [collapseChars]
      by_cases hc : pyIsSpace c = true
      · rw [if_pos hc, hstd c (by simp) hc]
      · rw [if_neg hc]
    | cons d ds =>
      have hcd := (List.chain'_cons.mp hch).1
      simp only [collapseChars]
      rw [if_neg (by
        intro hand
        exact hcd ⟨(and_true_parts hand).1, (and_true_parts hand).2⟩)]
      rw [ih (fun x hx hs => hstd x (List.mem_cons_of_mem _ hx) hs)
            (List.chain'_cons.mp hch).2]
      congr 1
      by_cases hc : pyIsSpace c = true
      · rw [if_pos hc]
        exact (hstd c (by simp) hc).symm
      · rw [if_neg hc]

theorem normalize_space_head (s : String) (c : Char)
    (h : (normalize_space s).data.head? = some c) : pyIsSpace c = false := by
  unfold normalize_space at h
  cases hd : stripChars s.data with
  | nil => rw [hd] at h; simp [collapseChars] at h
  | cons a as =>
    rw [hd] at h
    have hhead := collapseChars_head a as
    rw [hhead] at h
    have ha : pyIsSpace a = false :=
      stripChars_head s.data a (by rw [hd]; rfl)
    rw [ha] at h
    simp only [Option.some.injEq] at h
    simp at h
    exact h ▸ ha

theorem normalize_space_getLast (s : String) (c : Char)
    (h : (normalize_space s).data.getLast? = some c) : pyIsSpace c = false := by
  unfold normalize_space at h
  cases hd : stripChars s.data with
  | nil => rw [hd] at h; simp [collapseChars] at h
  | cons a as =>
    rw [hd] at h
    have hlast : (a :: as).getLast? = some ((a :: as).getLast (by simp)) :=
      List.getLast?_eq_getLast _ _
    have hns : pyIsSpace ((a :: as).getLast (by simp)) = false :=
      stripChars_getLast s.data _ (by rw [hd]; exact hlast)
    have := collapseChars_getLast (a :: as) _ hlast hns
    rw [this] at h
    simp only [Option.some.injEq] at h
    exact h ▸ hns

theorem normalize_space_chain (s : String) :
    (normalize_space s).data.Chain'
      (fun a b => ¬(pyIsSpace a = true ∧ pyIsSpace b = true)) :=
  collapseChars_chain _

theorem normalize_space_idem (s : String) :
    normalize_space (normalize_space s) = normalize_space s := by
  show String.mk (collapseChars (stripChars (collapseChars (stripChars s.data)))) =
    String.mk (collapseChars (stripChars s.data))
  have hstrip : stripChars (collapseChars (stripChars s.data)) =
      collapseChars (stripChars s.data) := by
    apply stripChars_eq_self
    · intro c hc
      exact normalize_space_head s c hc
    · intro c hc
      exact normalize_space_getLast s c hc
  rw [hstrip]
  rw [collapseChars_eq_self _ (collapseChars_space_mem _) (collapseChars_chain _)]

theorem isPref_iff (q t : List Char) :
    isPref q t = true ↔ ∃ r, t = q ++ r := by
  induction q generalizing t with
  | nil => simp [isPref]
  | cons a as ih =>
    cases t with
    | nil =>
      simp [isPref]
    | cons b bs =>
      simp only [isPref, Bool.and_eq_true, beq_iff_eq]
      constructor
      · rintro ⟨rfl, hpref⟩
        obtain ⟨r, rfl⟩ := (ih bs).mp hpref
        exact ⟨r, rfl⟩
      · rintro ⟨r, hr⟩
        simp only [List.cons_append, List.cons.injEq] at hr
        obtain ⟨rfl, hr⟩ := hr
        exact ⟨rfl, (ih bs).mpr ⟨r, hr⟩⟩

theorem containsSub_iff (q t : List Char) :
    containsSub q t = true ↔ ∃ l r, t = l ++ q ++ r := by
  induction t with
  | nil =>
    simp only [containsSub, isPref_iff]
    constructor
    · rintro ⟨r, hr⟩
      exact ⟨[], r, by simpa using hr⟩
    · rintro ⟨l, r, hlr⟩
      rcases List.append_eq_nil.mp (List.append_eq_nil.mp hlr.symm).1 with ⟨-, h2⟩
      exact ⟨r, by simp_all⟩
  | cons b bs ih =>
    simp only [containsSub, Bool.or_eq_true, isPref_iff, ih]
    constructor
    · rintro (⟨r, hr⟩ | ⟨l, r, rfl⟩)
      · exact ⟨[], r, by simpa using hr⟩
      · exact ⟨b :: l, r, rfl⟩
    · rintro ⟨l, r, hlr⟩
      cases l with
      | nil =>
        left
        exact ⟨r, by simpa using hlr⟩
      | cons x xs =>
        right
        simp only [List.cons_append, List.cons.injEq] at hlr
        exact ⟨xs, r, hlr.2⟩

theorem runSites_shift (uj : String → String → String)
    (fs : String → Option ℚ × Option String)
    (fd : String → Except String Doc) (q : String) (rows : List Row)
    (p : List FoundOffer × List String) :
    rows.foldl (runStep uj fs fd q) p =
      (p.1 ++ (rows.foldl (runStep uj fs fd q) ([], [])).1,
       p.2 ++ (rows.foldl (runStep uj fs fd q) ([], [])).2) := by
  induction rows generalizing p with
  | nil => simp
  | cons r rs ih =>
    rw [List.foldl_cons, List.foldl_cons]
    rw [ih (runStep uj fs fd q p r), ih (runStep uj fs fd q ([], []) r)]
    have hstep : ∀ p2 : List FoundOffer × List String,
        (runStep uj fs fd q p2 r).1 = p2.1 ++ (runStep uj fs fd q ([], []) r).1 ∧
        (runStep uj fs fd q p2 r).2 = p2.2 ++ (runStep uj fs fd q ([], []) r).2 := by
      intro p2
      unfold runStep
      by_cases h : (cfgOfRow r).search_url_template = ""
      · simp [h]
      · cases hs : scrape_site uj fs fd q (cfgOfRow r) with
        | ok os => simp [h, hs]
        | error m => simp [h, hs]
    rw [(hstep p).1, (hstep p).2, (hstep ([], [])).1, (hstep ([], [])).2]
    simp [List.append_assoc]

/-! Concrete data used by the witnesses and counterexamples below. -/

/-- A toy URL resolver standing in for `urllib.parse.urljoin`. -/
def uj0 : String → String → String := fun _ rel => rel

/-- A locale-aware parser that never finds an amount. -/
def fs0 : String → Option ℚ × Option String := fun _ => (none, none)

/-- A fetch that always raises. -/
def fdFail : String → Except String Doc := fun _ => Except.error "connection refused"

/-- A page whose only structured-data offer carries a negative price. -/
def negDoc : Doc :=
  { select := fun _ => []
  , jsonld := [some (JVal.obj [("@type", JVal.str "Offer"), ("price", JVal.num (-5))])] }

/-- A selector-less site configuration with a well-formed template. -/
def cfg0 : SiteConfig :=
  { name := "S", search_url_template := "https://e/?q=\x7bquery\x7d"
  , card_selector := "", title_selector := "", price_selector := ""
  , link_selector := "", currency_hint := "", max_results := 10 }

/-- A page with two offers sharing the dedup key and one distinct offer. -/
def dupDoc : Doc :=
  { select := fun _ => []
  , jsonld := [some (JVal.arr
      [ JVal.obj [("@type", JVal.str "Offer"), ("price", JVal.num 5)]
      , JVal.obj [("@type", JVal.str "Offer"), ("price", JVal.num 5)]
      , JVal.obj [("@type", JVal.str "Offer"), ("price", JVal.num 7)] ])] }

/-- A result card whose price text does not parse. -/
def cardBadPrice : Card :=
  { selectOne := fun sel =>
      if sel = ".p" then some { text := "call us", href := none } else none }

/-- A site configuration that reads prices from `.p`. -/
def cfgSel : SiteConfig :=
  { name := "S", search_url_template := "https://e/?q=\x7bquery\x7d"
  , card_selector := ".c", title_selector := "", price_selector := ".p"
  , link_selector := "", currency_hint := "", max_results := 10 }

/-- A row whose search-url template is blank after stripping. -/
def rowBlank : Row :=
  { name := "X", search_url_template := "   ", card_selector := ""
  , title_selector := "", price_selector := "", link_selector := ""
  , currency_hint := "", max_results := none }

/-- A row whose search-url template is non-blank but lacks the token. -/
def rowNoToken : Row :=
  { name := " X ", search_url_template := "https://e/?q=", card_selector := ""
  , title_selector := "", price_selector := "", link_selector := ""
  , currency_hint := "", max_results := none }

/-- A structured-data node whose extraction raises (`name` is a number, so
`normalize_space` gets a non-string). -/
def badNameNode : JVal :=
  JVal.obj [("@type", JVal.str "Product"), ("name", JVal.num 5)]

/-- A well-formed structured-data offer node. -/
def goodOfferNode : JVal :=
  JVal.obj [("@type", JVal.str "Offer"), ("price", JVal.num 3)]

/-- C6: `wildcard_match query text` is true exactly when the
whitespace-collapsed, trimmed, lowercased query occurs as a contiguous
substring of the whitespace-collapsed, trimmed, lowercased text; hence the
result only depends on the two normalized-lowercased forms, so it is
unchanged by altering letter case or whitespace runs in either argument. -/
theorem wildcard_match_substring_spec (q t q2 t2 : String) :
    (wildcard_match q t = true ↔
      ∃ l r, (pyLower (normalize_space t)).data =
        l ++ (pyLower (normalize_space q)).data ++ r)
    ∧ (pyLower (normalize_space q2) = pyLower (normalize_space q) →
       pyLower (normalize_space t2) = pyLower (normalize_space t) →
       wildcard_match q2 t2 = wildcard_match q t) := by
  constructor
  · exact containsSub_iff _ _
  · intro h1 h2
    show containsSub (pyLower (normalize_space q2)).data
        (pyLower (normalize_space t2)).data =
      containsSub (pyLower (normalize_space q)).data
        (pyLower (normalize_space t)).data
    rw [h1, h2]

/-- Witness for C6 at concrete inputs: case and whitespace changes leave
the match unchanged, and the match from the spec example holds. -/
theorem wildcard_match_substring_spec_witness :
    wildcard_match "DriLL" "  BOSCH   Drill  18V" =
      wildcard_match "drill" "BOSCH Drill 18V" ∧
    wildcard_match "drill" "  BOSCH   Drill  18V" = true := by
  constructor
  · exact (wildcard_match_substring_spec "drill" "BOSCH Drill 18V"
      "DriLL" "  BOSCH   Drill  18V").2 (by decide) (by decide)
  · exact (wildcard_match_substring_spec "drill" "  BOSCH   Drill  18V"
      "x" "y").1.mpr ⟨"bosch ".data, " 18v".data, by decide⟩

/-- C10: `normalize_space` is idempotent, its output has no leading or
trailing whitespace and no two consecutive whitespace characters, and
`wildcard_match` is unchanged when either argument is pre-normalized. -/
theorem normalize_space_idem_spec (s q t : String) :
    normalize_space (normalize_space s) = normalize_space s
    ∧ (∀ c, (normalize_space s).data.head? = some c → pyIsSpace c = false)
    ∧ (∀ c, (normalize_space s).data.getLast? = some c → pyIsSpace c = false)
    ∧ (normalize_space s).data.Chain'
        (fun a b => ¬(pyIsSpace a = true ∧ pyIsSpace b = true))
    ∧ wildcard_match (normalize_space q) t = wildcard_match q t
    ∧ wildcard_match q (normalize_space t) = wildcard_match q t := by
  refine ⟨normalize_space_idem s, normalize_space_head s,
    normalize_space_getLast s, normalize_space_chain s, ?_, ?_⟩
  · show containsSub (pyLower (normalize_space (normalize_space q))).data
        (pyLower (normalize_space t)).data =
      containsSub (pyLower (normalize_space q)).data
        (pyLower (normalize_space t)).data
    rw [normalize_space_idem]
  · show containsSub (pyLower (normalize_space q)).data
        (pyLower (normalize_space (normalize_space t))).data =
      containsSub (pyLower (normalize_space q)).data
        (pyLower (normalize_space t)).data
    rw [normalize_space_idem]

/-- Witness for C10 at a concrete input. -/
theorem normalize_space_idem_spec_witness :
    normalize_space (normalize_space "  a \t b  ") = normalize_space "  a \t b  "
    ∧ pyIsSpace 'a' = false
    ∧ wildcard_match (normalize_space " A  b ") "xx a b yy" =
        wildcard_match " A  b " "xx a b yy" := by
  refine ⟨(normalize_space_idem_spec "  a \t b  " "q" "t").1, ?_, ?_⟩
  · exact (normalize_space_idem_spec "  a \t b  " "q" "t").2.1 'a' (by decide)
  · exact (normalize_space_idem_spec "s" " A  b " "xx a b yy").2.2.2.2.1

/-- C7: for an empty or whitespace-only input (given that the locale-aware
library parser finds no amount in digit-free text), `parse_price` returns
`(none, none)`; in the embedding the function is total, so it never
raises and failure is visible only as the `none` amount. -/
theorem parse_price_blank_none (fs : String → Option ℚ × Option String)
    (s : String)
    (hfs : ∀ u : String, (∀ c ∈ u.data, c.isDigit = false) → (fs u).1 = none)
    (hws : ∀ c ∈ s.data, pyIsSpace c = true) :
    parse_price fs s = (none, none) := by
  unfold parse_price
  by_cases hempty : s = ""
  · simp [hempty]
  · rw [if_neg hempty]
    have hfs2 : (fs s).1 = none :=
      hfs s (fun c hc => pyIsSpace_not_digit c (hws c hc))
    cases hpair : fs s with
    | mk o cur =>
      rw [hpair] at hfs2
      simp only at hfs2
      subst hfs2
      have hsan : price_sanitize s = "" := price_sanitize_ws s hws
      rw [hsan]
      rfl

/-- Witness for C7: a whitespace-only input under a digit-demanding
library parser. -/
theorem parse_price_blank_none_witness :
    parse_price fs0 " \t " = (none, none) :=
  parse_price_blank_none fs0 " \t " (fun _ _ => rfl) (by decide)

/-- C8: whenever the locale-aware parse yields no amount for a non-empty
text, `parse_price` returns exactly the fallback: the text stripped to
digits, dots and commas, commas removed, parsed as a decimal number, with a
null currency (and `(none, none)` when that remainder does not parse,
since the fallback amount is then itself `none`). -/
theorem parse_price_fallback_spec (fs : String → Option ℚ × Option String)
    (s : String) (hne : s ≠ "") (hfs : (fs s).1 = none) :
    parse_price fs s = (pyFloat (removeCommas (price_sanitize s)), none) := by
  unfold parse_price
  rw [if_neg hne]
  cases hpair : fs s with
  | mk o cur =>
    rw [hpair] at hfs
    simp only at hfs
    subst hfs
    cases hf : pyFloat (removeCommas (price_sanitize s)) <;> simp [hf]

/-- Witness for C8 at a concrete input. -/
theorem parse_price_fallback_spec_witness :
    parse_price fs0 "£1,23.5x" =
      (pyFloat (removeCommas (price_sanitize "£1,23.5x")), none) :=
  parse_price_fallback_spec fs0 "£1,23.5x" (by decide) rfl

/-- The URL substitution exactly as the claim words it: the template with
the token replaced by the percent-encoding of the query itself. -/
def claimed_search_url (query template : String) : String :=
  pyReplace template "\x7bquery\x7d" (quote_plus query)

/-- Counterexample to C4: for the query `" a "` (with surrounding spaces)
the code encodes the stripped query, so the built URL differs from the
claimed substitution of the encoded query itself. -/
theorem build_search_url_untrimmed_cex :
    build_search_url " a " "https://e/?q=\x7bquery\x7d" ≠
      claimed_search_url " a " "https://e/?q=\x7bquery\x7d" := by
  decide

/-- C4 (amended): for every template containing `{query}` and every query,
the built search URL equals the template with the token replaced by the
URL-percent-encoding (spaces as `+`) of the whitespace-trimmed query, and
`scrape_site` fetches exactly that URL. -/
theorem build_search_url_trimmed_query (uj : String → String → String)
    (fs : String → Option ℚ × Option String)
    (fetch : String → Except String Doc) (q : String) (cfg : SiteConfig)
    (h : containsSub "\x7bquery\x7d".data cfg.search_url_template.data = true) :
    build_search_url q cfg.search_url_template =
      claimed_search_url (pyStrip q) cfg.search_url_template
    ∧ scrape_site uj fs fetch q cfg =
      (match fetch (claimed_search_url (pyStrip q) cfg.search_url_template) with
       | Except.error e => Except.error e
       | Except.ok doc => Except.ok (scrape_result uj fs doc q cfg
           (claimed_search_url (pyStrip q) cfg.search_url_template))) := by
  have hb : build_search_url q cfg.search_url_template =
      claimed_search_url (pyStrip q) cfg.search_url_template := rfl
  refine ⟨hb, ?_⟩
  unfold scrape_site
  rw [h]
  rw [if_neg (by simp)]
  rw [hb]

/-- Witness for C4 (amended) at concrete inputs: spaces inside the trimmed
query are encoded as `+`. -/
theorem build_search_url_trimmed_query_witness :
    build_search_url " a b " "https://e/?q=\x7bquery\x7d" =
      claimed_search_url (pyStrip " a b ") "https://e/?q=\x7bquery\x7d"
    ∧ build_search_url " a b " "https://e/?q=\x7bquery\x7d" = "https://e/?q=a+b" := by
  constructor
  · exact (build_search_url_trimmed_query uj0 fs0 fdFail " a b "
      { cfg0 with search_url_template := "https://e/?q=\x7bquery\x7d" }
      (by decide)).1
  · decide

/-- C5: the list returned by `scrape_site` never contains two offers with
the same `(url, price, currency)` triple; it is exactly the filtered
pre-dedup list with every later duplicate of an earlier key deleted
(first occurrence wins, with all its field values), and it is a sublist of
the filtered list, so relative order is preserved. -/
theorem scrape_site_dedup_first_wins (uj : String → String → String)
    (fs : String → Option ℚ × Option String) (q : String) (cfg : SiteConfig)
    (doc : Doc) (fetch : String → Except String Doc) (l : List FoundOffer)
    (hfetch : fetch (build_search_url q cfg.search_url_template) = Except.ok doc)
    (hok : scrape_site uj fs fetch q cfg = Except.ok l) :
    l = keepFirsts (scrape_filtered uj fs doc q cfg
          (build_search_url q cfg.search_url_template))
    ∧ l.Sublist (scrape_filtered uj fs doc q cfg
          (build_search_url q cfg.search_url_template))
    ∧ l.Pairwise (fun a b => offerKey a ≠ offerKey b) := by
  unfold scrape_site at hok
  by_cases hc : containsSub "\x7bquery\x7d".data cfg.search_url_template.data = false
  · rw [if_pos hc] at hok
    exact absurd hok (by simp)
  · rw [if_neg hc] at hok
    dsimp only at hok
    rw [hfetch] at hok
    simp only [Except.ok.injEq] at hok
    subst hok
    refine ⟨?_, ?_, ?_⟩
    · exact dedupOffers_eq_keepFirsts _
    · rw [scrape_result, dedupOffers_eq_aux]
      exact dedupAux_sublist _ _
    · rw [scrape_result, dedupOffers_eq_aux]
      exact dedupAux_pairwise _ _

/-- Witness for C5: a page carrying two offers with an identical key and a
third distinct one; the duplicate collapses, first-seen field values and
order survive. -/
theorem scrape_site_dedup_first_wins_witness :
    scrape_site uj0 fs0 (fun _ => Except.ok dupDoc) "drill" cfg0 =
      Except.ok
        [{ site := "S", title := "(JSON-LD Product)", price := 5, currency := ""
         , url := "https://e/?q=drill", matched := false },
         { site := "S", title := "(JSON-LD Product)", price := 7, currency := ""
         , url := "https://e/?q=drill", matched := false }]
    ∧ ([{ site := "S", title := "(JSON-LD Product)", price := 5, currency := ""
        , url := "https://e/?q=drill", matched := false },
        { site := "S", title := "(JSON-LD Product)", price := 7, currency := ""
        , url := "https://e/?q=drill", matched := false }] :
        List FoundOffer).Pairwise (fun a b => offerKey a ≠ offerKey b) := by
  constructor
  · rfl
  · exact (scrape_site_dedup_first_wins uj0 fs0 "drill" cfg0 dupDoc
      (fun _ => Except.ok dupDoc) _ rfl rfl).2.2

/-- C9: `extract_jsonld_offers` is total by construction (it always returns
a list), and it recovers locally from bad inputs: a block whose text failed
JSON parsing contributes nothing, and a top-level node whose extraction
raises contributes nothing, while every other block and node is still
processed. -/
theorem extract_jsonld_offers_skips (uj : String → String → String)
    (base : String) (s1 s2 : List (Option JVal)) (xs ys : List JVal)
    (bad : JVal)
    (hbad : extract_offers_from_jsonld_node uj base bad = Except.error ()) :
    extract_jsonld_offers uj base (s1 ++ none :: s2) =
      extract_jsonld_offers uj base s1 ++ extract_jsonld_offers uj base s2
    ∧ extract_jsonld_offers uj base (s1 ++ some (JVal.arr (xs ++ bad :: ys)) :: s2) =
      extract_jsonld_offers uj base s1
        ++ jsonldBlockOffers uj base (some (JVal.arr xs))
        ++ jsonldBlockOffers uj base (some (JVal.arr ys))
        ++ extract_jsonld_offers uj base s2 := by
  constructor
  · simp [extract_jsonld_offers, jsonldBlockOffers]
  · simp [extract_jsonld_offers, jsonldBlockOffers, jsonldNodeOffers, hbad]

/-- Witness for C9: a good block survives both a malformed neighbour block
and a raising neighbour node. -/
theorem extract_jsonld_offers_skips_witness :
    extract_jsonld_offers uj0 "b" [some goodOfferNode, none] =
      extract_jsonld_offers uj0 "b" [some goodOfferNode]
        ++ extract_jsonld_offers uj0 "b" []
    ∧ extract_jsonld_offers uj0 "b"
        [some (JVal.arr ([goodOfferNode] ++ badNameNode :: [goodOfferNode]))] =
      extract_jsonld_offers uj0 "b" []
        ++ jsonldBlockOffers uj0 "b" (some (JVal.arr [goodOfferNode]))
        ++ jsonldBlockOffers uj0 "b" (some (JVal.arr [goodOfferNode]))
        ++ extract_jsonld_offers uj0 "b" [] := by
  constructor
  · exact (extract_jsonld_offers_skips uj0 "b" [some goodOfferNode] []
      [] [] badNameNode rfl).1
  · exact (extract_jsonld_offers_skips uj0 "b" [] [] [goodOfferNode]
      [goodOfferNode] badNameNode rfl).2

/-- Counterexample to C3: a site row whose template is blank (hence lacks
the `{query}` token) is silently skipped by the orchestrator loop — no
error entry is recorded, contradicting the claim that every template
without the token produces a recorded configuration error. -/
theorem runSites_blank_template_silent_cex :
    containsSub "\x7bquery\x7d".data rowBlank.search_url_template.data = false
    ∧ runSites uj0 fs0 fdFail "drill" [rowBlank] = ([], []) := by
  constructor
  · decide
  · rfl

/-- C3 (amended): for every site row whose template is non-blank after
stripping and lacks the `{query}` token, `scrape_site` raises the
configuration error, the orchestrator records it as
`"<row name>: <message>"` (where the message itself starts with the
stripped site name), that site contributes no offers, and the remaining
rows are still processed; a row whose template strips to blank is instead
skipped silently. -/
theorem runSites_config_error_recorded (uj : String → String → String)
    (fs : String → Option ℚ × Option String)
    (fd : String → Except String Doc) (q : String) (r : Row)
    (rest : List Row)
    (hne : pyStrip r.search_url_template ≠ "")
    (hq : containsSub "\x7bquery\x7d".data
            (pyStrip r.search_url_template).data = false) :
    runSites uj fs fd q (r :: rest) =
      ((runSites uj fs fd q rest).1,
       (r.name ++ ": " ++ ((cfgOfRow r).name
          ++ ": search_url_template must include \x7bquery\x7d"))
         :: (runSites uj fs fd q rest).2) := by
  have hne2 : (cfgOfRow r).search_url_template ≠ "" := hne
  have hq2 : containsSub "\x7bquery\x7d".data
      (cfgOfRow r).search_url_template.data = false := hq
  unfold runSites
  rw [List.foldl_cons]
  rw [runSites_shift]
  have hstep : runStep uj fs fd q ([], []) r =
      ([], [r.name ++ ": " ++ ((cfgOfRow r).name
        ++ ": search_url_template must include \x7bquery\x7d")]) := by
    unfold runStep
    rw [if_neg hne2]
    unfold scrape_site
    rw [if_pos hq2]
    rfl
  rw [hstep]
  simp

/-- Witness for C3 (amended): the token-less row yields exactly one
formatted error entry and the following site is still scraped. -/
theorem runSites_config_error_recorded_witness :
    runSites uj0 fs0 (fun _ => Except.ok dupDoc) "drill" [rowNoToken] =
      ([], [" X : X: search_url_template must include \x7bquery\x7d"]) :=
  runSites_config_error_recorded uj0 fs0 (fun _ => Except.ok dupDoc) "drill"
    rowNoToken [] (by decide) (by decide)

/-- Counterexample to C1: a structured-data offer whose `price` field is
the JSON number -5 passes `float()` unchanged, so `scrape_site` returns an
offer with a negative price, refuting `price >= 0`. -/
theorem scrape_site_negative_price_cex :
    scrape_site uj0 fs0 (fun _ => Except.ok negDoc) "drill" cfg0 =
      Except.ok [{ site := "S", title := "(JSON-LD Product)", price := -5
                 , currency := "", url := "https://e/?q=drill"
                 , matched := false }]
    ∧ ((-5 : ℚ) < 0) := by
  constructor
  · rfl
  · decide

/-- C1 (amended): every offer in `scrape_site`'s output is one of the
page's extracted candidates, each of which is constructed only after a
successful price parse: a selector card whose price text does not parse
yields no offer, and a structured-data offer node whose price does not
parse yields no offer (either the empty list, or the raised error that
discards its whole node).  The price, however, need not be non-negative. -/
theorem scrape_site_price_guard (uj : String → String → String)
    (fs : String → Option ℚ × Option String)
    (fetch : String → Except String Doc) (q : String) (cfg : SiteConfig)
    (doc : Doc) (base burl title : String) (c : Card)
    (kvs : List (String × JVal)) (l : List FoundOffer) :
    ((parse_price fs (card_price_text cfg c)).1 = none →
      card_offer uj fs q cfg base c = none)
    ∧ (offer_price kvs = none →
      offers_from_offer_obj uj kvs title burl = Except.ok [] ∨
      offers_from_offer_obj uj kvs title burl = Except.error ())
    ∧ (fetch (build_search_url q cfg.search_url_template) = Except.ok doc →
       scrape_site uj fs fetch q cfg = Except.ok l →
       ∀ o ∈ l, o ∈ scrape_found uj fs doc q cfg
         (build_search_url q cfg.search_url_template)) := by
  refine ⟨?_, ?_, ?_⟩
  · intro hp
    unfold card_offer
    dsimp only
    cases hpair : parse_price fs (card_price_text cfg c) with
    | mk o cur =>
      rw [hpair] at hp
      simp only at hp
      subst hp
      rfl
  · intro hp
    unfold offers_from_offer_obj
    cases hurl : getUrlField kvs with
    | error e => right; rfl
    | ok rel =>
      left
      rw [hp]
  · intro hfetch hok
    intro o ho
    have hsub := (scrape_site_dedup_first_wins uj fs q cfg doc fetch l
      hfetch hok).2.1
    have hmem := hsub.subset ho
    exact List.filter_sublist _ |>.subset hmem

/-- Witness for C1 (amended) at concrete inputs. -/
theorem scrape_site_price_guard_witness :
    card_offer uj0 fs0 "drill" cfgSel "https://e/?q=drill" cardBadPrice = none
    ∧ (offers_from_offer_obj uj0 [("@type", JVal.str "Offer")] "" "b" =
        Except.ok [] ∨
       offers_from_offer_obj uj0 [("@type", JVal.str "Offer")] "" "b" =
        Except.error ())
    ∧ ∀ o ∈ [({ site := "S", title := "(JSON-LD Product)", price := -5
              , currency := "", url := "https://e/?q=drill"
              , matched := false } : FoundOffer)],
        o ∈ scrape_found uj0 fs0 negDoc "drill" cfg0
          (build_search_url "drill" cfg0.search_url_template) := by
  refine ⟨?_, ?_, ?_⟩
  · exact (scrape_site_price_guard uj0 fs0 fdFail "drill" cfgSel negDoc
      "https://e/?q=drill" "b" "" cardBadPrice [] []).1 (by decide)
  · exact (scrape_site_price_guard uj0 fs0 fdFail "drill" cfgSel negDoc
      "https://e/?q=drill" "b" "" cardBadPrice [("@type", JVal.str "Offer")]
      []).2.1 rfl
  · exact (scrape_site_price_guard uj0 fs0 (fun _ => Except.ok negDoc)
      "drill" cfg0 negDoc "https://e/?q=drill" "b" "" cardBadPrice [] _).2.2
      rfl rfl

end PriceFinder
